import Mathlib

/-!
Verification of the gen-vulkan code generator (cicada-engine repository).

This development shallowly embeds the parts of the generator that the
checked properties are about:

* the attribute-map helpers and the generic element-parsing protocol of
  src/crates/tools/gen-vulkan/src/parse.rs (trait GenericParse and the
  blanket impl of Parse, plus the separate Parse impl for GenericItem);
* the Depends expression parser of parse.rs (Depends::parse and friends);
* the command-element attribute parser (DefinedCommand::parse_attribs and
  the surrounding handlers);
* the require-enum offset attribute record (RequireEnumOffsetDetails, Dir);
* the indexed-registry tables of src/crates/tools/gen-vulkan/src/repr.rs
  (Types::insert, Types::next_handle, the metadata flags);
* the emitter of src/crates/tools/gen-vulkan/src/emit.rs (which files
  Vulkan::emit creates, the struct-module iteration order,
  TypeInfo::decorated_name, TypeInfo::screaming_name,
  TypeInfo::default_value).

Rust HashMap attribute maps are modelled as association lists; the XML
event stream is modelled as a list of events; recursion over the stream
uses an explicit fuel parameter (the extra PError.fuelOut outcome is a
modelling artifact that never occurs for sufficient fuel and is never an
ok result, so success statements are unaffected).
-/

namespace GenVulkan

/-- Attribute maps: HashMap<String, String> modelled as an association list
with pairwise-distinct keys (xml attributes are unique per element). -/
abbrev AttrMap := List (String × String)

/-- Errors of the parse layer, with the variants and payloads that
parse.rs constructs (error.rs in the repository holds an older draft of
the error enum; the variants here follow the parse.rs call sites and the
spec error table). The extra fuelOut variant is a fuel artifact of the
embedding, not a source error. -/
inductive PError where
  | badStart (element : String)
  | badEnd (name : String)
  | badChild (parent : String) (child : String)
  | badCont (text : String)
  | reqAttrib (element : String) (attrib : String)
  | badAttrib (element : String) (attrib : String) (value : String)
  | unreadAttrib (element : String) (attrib : String) (value : String)
  | docEnd
  | emptyReg
  | parseBool
  | fuelOut
  deriving DecidableEq

/-- XML reader events as consumed by the parser driver: StartElement,
EndElement, Characters, EndDocument, and the whitespace/comment/PI events
that parse_misc swallows. -/
inductive Event where
  | startElement (name : String) (attribs : AttrMap)
  | endElement (name : String)
  | characters (text : String)
  | endDocument
  | misc
  deriving DecidableEq

/-- HashMap::remove on an attribute map: drop the entry for the key (keys
are unique) and return the removed value together with the rest. -/
def removeA (k : String) : AttrMap → Option String × AttrMap
  | [] => (none, [])
  | (k', v) :: rest =>
    if k' = k then (some v, rest)
    else
      let (r, rest') := removeA k rest
      (r, (k', v) :: rest')

/-- AttributeMapExt::req_attrib: remove the attribute or fail with
ReqAttrib(element, attrib). -/
def reqAttribA (element k : String) (m : AttrMap) : Except PError (String × AttrMap) :=
  match removeA k m with
  | (some v, m') => .ok (v, m')
  | (none, _) => .error (.reqAttrib element k)

/-- AttributeMapExt::try_get: remove the attribute if present and run the
FromStr parser on it; a parse failure is BadAttrib(element, attrib, value). -/
def tryGetA {α : Type} (parse : String → Option α) (element k : String) (m : AttrMap) :
    Except PError (Option α × AttrMap) :=
  match removeA k m with
  | (none, m') => .ok (none, m')
  | (some v, m') =>
    match parse v with
    | some t => .ok (some t, m')
    | none => .error (.badAttrib element k v)

/-- Rust str::split with a char predicate: the matching characters are
separators and are removed; empty segments at the edges and between
adjacent separators are kept. -/
def rustSplit (p : Char → Bool) (s : List Char) : List (List Char) :=
  go s []
where
  go : List Char → List Char → List (List Char)
  | [], acc => [acc.reverse]
  | c :: cs, acc => if p c then acc.reverse :: go cs [] else go cs (c :: acc)

/-- Rust str::split(',') followed by collecting each piece to a String. -/
def splitComma (s : String) : List String :=
  (rustSplit (fun c => c = ',') s.data).map (fun l => ⟨l⟩)

/-- bool::from_str: exactly "true" and "false" parse. -/
def parseBoolS : String → Option Bool
  | "true" => some true
  | "false" => some false
  | _ => none

/-! ## The Depends expression parser (parse.rs, Depends::parse) -/

/-- Depends: a recursive boolean expression over feature names
(parse.rs lines 2278-2282). -/
inductive Depends where
  | feature (name : String)
  | and (children : List Depends)
  | or (children : List Depends)

/-- Index of the first '+' in the remaining character stream
(chars.clone().position(|ch| ch == '+') in Depends::parse_and). -/
def findPlus (s : List Char) : Option Nat := s.findIdx? (fun c => c = '+')

mutual

/-- Depends::parse: entry point, delegates to parse_or. The Nat argument
is fuel for the embedding; every nested call decrements it. -/
def dparse : Nat → List Char → Option (Depends × List Char)
  | 0, _ => none
  | n + 1, s => dparseOr n s

/-- Depends::parse_or: parse a paren/and operand, then either a ',' and a
recursive or-tail (flattened), the end of input, or failure. -/
def dparseOr : Nat → List Char → Option (Depends × List Char)
  | 0, _ => none
  | n + 1, s =>
    match dparseParen n s with
    | none => none
    | some (first, s1) =>
      match s1 with
      | ',' :: s2 =>
        match dparseOr n s2 with
        | some (.or v, s3) => some (.or (first :: v), s3)
        | some (next, s3) => some (.or [first, next], s3)
        | none => none
      | [] => some (first, [])
      | _ => none

/-- Depends::parse_paren: a '(' is consumed and the parser recurses into
parse (note: the source never consumes a matching ')'); any other
character dispatches to parse_and; end of input fails. -/
def dparseParen : Nat → List Char → Option (Depends × List Char)
  | 0, _ => none
  | _ + 1, [] => none
  | n + 1, '(' :: s1 => dparse n s1
  | n + 1, s => dparseAnd n s

/-- Depends::parse_and: if a '+' occurs anywhere in the remaining stream,
everything before the first '+' becomes a Feature name (commas and parens
included), the '+' is consumed, and the rest is parsed recursively and
flattened into an And; otherwise the whole remaining stream becomes one
Feature name. -/
def dparseAnd : Nat → List Char → Option (Depends × List Char)
  | 0, _ => none
  | n + 1, s =>
    match findPlus s with
    | some pos =>
      let name : String := ⟨s.take pos⟩
      let rest := s.drop (pos + 1)
      match dparse n rest with
      | some (.and v, s1) => some (.and (.feature name :: v), s1)
      | some (next, s1) => some (.and [.feature name, next], s1)
      | none => none
    | none => some (.feature ⟨s⟩, [])

end

/-- FromStr for Depends: run Depends::parse over the peekable character
stream of the string (4 * (length + 1) fuel covers every call chain, each
of the four phases being entered at most once per remaining position). -/
def dependsFromStr (s : String) : Option Depends :=
  match dparse (4 * (s.length + 1)) s.data with
  | some (d, _) => some d
  | none => none

/-! ## The generic element-parsing protocol (parse.rs, trait GenericParse
and the blanket impl of Parse, lines 63-150) -/

/-- An element handler: the GenericParse capability quartet together with
the element name and the Default accumulator. The parse_child field gets
the current fuel so that concrete handlers can recurse into nested
element parsers. Field defaults mirror the trait's default methods:
parse_attribs consumes nothing, parse_child rejects with
BadChild(NAME, child), parse_text rejects with BadCont, parse_misc
swallows the event. -/
structure GHandler (α : Type) where
  name : String
  dflt : α
  parseAttribs : α → String → AttrMap → Except PError (α × AttrMap) :=
    fun a _ m => .ok (a, m)
  parseChild : Nat → α → String → AttrMap → List Event → Except PError (α × List Event) :=
    fun _ _ el _ _ => .error (.badChild name el)
  parseText : α → String → Except PError α :=
    fun _ t => .error (.badCont t)
  parseMisc : α → Except PError α :=
    fun a => .ok a

/-- The event loop of the blanket Parse impl: read events until the
matching EndElement closes the frame; EndDocument before close is DocEnd;
a mismatched EndElement is BadEnd; StartElement dispatches to
parse_child, Characters to parse_text, everything else to parse_misc.
An exhausted event list behaves like EndDocument. -/
def parseLoop {α : Type} (g : GHandler α) : Nat → α → List Event → Except PError (α × List Event)
  | 0, _, _ => .error .fuelOut
  | n + 1, item, evs =>
    match evs with
    | [] => .error .docEnd
    | .endDocument :: _ => .error .docEnd
    | .startElement nm at1 :: rest =>
      match g.parseChild n item nm at1 rest with
      | .ok (item', rest') => parseLoop g n item' rest'
      | .error e => .error e
    | .endElement nm :: rest =>
      if nm = g.name then .ok (item, rest) else .error (.badEnd nm)
    | .characters t :: rest =>
      match g.parseText item t with
      | .ok item' => parseLoop g n item' rest
      | .error e => .error e
    | .misc :: rest =>
      match g.parseMisc item with
      | .ok item' => parseLoop g n item' rest
      | .error e => .error e

/-- The blanket impl of Parse for T: GenericParse + Default: check the
element name, run parse_attribs on the Default accumulator, fail with
UnreadAttrib on any attribute left in the map, then loop over the events
until the matching end tag. -/
def parseGeneric {α : Type} (g : GHandler α) (fuel : Nat) (element : String)
    (attribs : AttrMap) (events : List Event) : Except PError (α × List Event) :=
  if element ≠ g.name then .error (.badStart element)
  else
    match g.parseAttribs g.dflt element attribs with
    | .error e => .error e
    | .ok (item, rest) =>
      match rest with
      | (a, v) :: _ => .error (.unreadAttrib element a v)
      | [] => parseLoop g fuel item events

/-! ## GenericItem (parse.rs lines 152-211): the mixed-content children. -/

/-- Kinds of mixed-content items. -/
inductive GenericItemKind where
  | text
  | typeK
  | name
  | enumK
  | comment
  deriving DecidableEq

/-- A mixed-content item: a kind together with the accumulated text. -/
structure GenericItemS where
  text : String
  kind : GenericItemKind
  deriving DecidableEq

/-- GenericItem::text: a literal text run. -/
def GenericItemS.textItem (t : String) : GenericItemS := ⟨t, .text⟩

/-- The separate Parse impl for GenericItem: dispatch on the element name
(name, type, enum, comment), then accumulate character content until the
matching end tag. The attribute map parameter is bound to an underscore
in the source and is entirely ignored: no UnreadAttrib check happens
here. A mismatched EndElement is silently skipped (the source's
EndElement arm has no else branch); a nested StartElement is
BadChild(element, child). -/
def genericItemParse (fuel : Nat) (element : String) (attribs : AttrMap)
    (events : List Event) : Except PError (GenericItemS × List Event) :=
  let _ := attribs
  match element with
  | "name" => giLoop fuel element .name "" events
  | "type" => giLoop fuel element .typeK "" events
  | "enum" => giLoop fuel element .enumK "" events
  | "comment" => giLoop fuel element .comment "" events
  | _ => .error (.badStart element)
where
  giLoop : Nat → String → GenericItemKind → String → List Event →
      Except PError (GenericItemS × List Event)
  | 0, _, _, _, _ => .error .fuelOut
  | n + 1, el, kind, content, evs =>
    match evs with
    | [] => .error .docEnd
    | .endDocument :: _ => .error .docEnd
    | .startElement nm _ :: _ => .error (.badChild el nm)
    | .endElement nm :: rest =>
      if nm = el then .ok (⟨content, kind⟩, rest)
      else giLoop n el kind content rest
    | .characters t :: rest => giLoop n el kind (content ++ t) rest
    | .misc :: rest => giLoop n el kind content rest

/-! ## The command element handlers (parse.rs lines 1803-2109). -/

/-- Comment (parse.rs lines 319-331): a text accumulator; parse_attribs
is the trait default (consumes nothing). -/
structure CommentS where
  text : String := ""
  deriving DecidableEq

/-- The comment element handler. -/
def commentHandler : GHandler CommentS where
  name := "comment"
  dflt := {}
  parseText := fun c t => .ok ⟨c.text ++ t⟩

/-- Len (parse.rs lines 1322-1360). -/
inductive LenS where
  | nullTerminated
  | member (value : String)
  | number (value : String)
  | alt (len : String) (altLen : String)
  deriving DecidableEq

/-- FromStr for Len: "null-terminated" is NullTerminated; a value whose
first character is alphabetic is Member; anything else is Number. The
impl never fails. -/
def lenFromStr (s : String) : LenS :=
  match s with
  | "null-terminated" => .nullTerminated
  | _ =>
    if (s.data.head?.map Char.isAlpha).getD false then .member s else .number s

/-- Len::from_attribs: a len together with an altlen becomes one Alt; a
bare len is comma-split and parsed piecewise; no len is None. -/
def lenFromAttribs (len altLen : Option String) : Option (List LenS) :=
  match len with
  | some l =>
    match altLen with
    | some a => some [.alt l a]
    | none => some ((splitComma l).map lenFromStr)
  | none => none

/-- ExternSync (parse.rs lines 2011-2029): false, true, or a field path. -/
inductive ESync where
  | no
  | yes
  | field (value : String)
  deriving DecidableEq

/-- FromStr for ExternSync; never fails. -/
def eSyncFromStr (s : String) : Option ESync :=
  match s with
  | "false" => some .no
  | "true" => some .yes
  | _ => some (.field s)

/-- CommandProto (parse.rs lines 1891-1925): mixed-content items plus a
comment attribute. -/
structure CommandProtoS where
  items : List GenericItemS := []
  comment : Option String := none
  deriving DecidableEq

/-- The proto element handler: comment attribute, GenericItem children,
text runs pushed as Text items. -/
def commandProtoHandler : GHandler CommandProtoS where
  name := "proto"
  dflt := {}
  parseAttribs := fun a _ m =>
    let (cm, m) := removeA "comment" m
    .ok ({ a with comment := cm }, m)
  parseChild := fun fuel a el at1 evs =>
    match genericItemParse fuel el at1 evs with
    | .ok (gi, rest) => .ok ({ a with items := a.items ++ [gi] }, rest)
    | .error e => .error e
  parseText := fun a t => .ok { a with items := a.items ++ [GenericItemS.textItem t] }

/-- CommandParam (parse.rs lines 1950-2009). -/
structure CommandParamS where
  api : Option String := none
  optional : Option (List Bool) := none
  ext_sync : Option ESync := none
  no_auto_validity : Option Bool := none
  len : Option (List LenS) := none
  stride : Option String := none
  object_type : Option String := none
  valid_structs : Option (List String) := none
  items : List GenericItemS := []
  comment : Option String := none
  deriving DecidableEq

/-- Parse a comma-separated list of bools; the first failure is the
ParseBool error that the source's question-mark operator propagates. -/
def parseBoolList (s : String) : Except PError (List Bool) :=
  go (splitComma s)
where
  go : List String → Except PError (List Bool)
  | [] => .ok []
  | x :: xs =>
    match parseBoolS x with
    | some b =>
      match go xs with
      | .ok bs => .ok (b :: bs)
      | .error e => .error e
    | none => .error .parseBool

/-- The tail of CommandParam::parse_attribs after the optional attribute. -/
def commandParamParseAttribsRest (a : CommandParamS) (element : String) (m : AttrMap) :
    Except PError (CommandParamS × AttrMap) :=
  match tryGetA eSyncFromStr element "externsync" m with
  | .error e => .error e
  | .ok (es, m) =>
    match tryGetA parseBoolS element "noautovalidity" m with
    | .error e => .error e
    | .ok (nav, m) =>
      let (len, m) := removeA "len" m
      let (altLen, m) := removeA "altlen" m
      let (stride, m) := removeA "stride" m
      let (objTy, m) := removeA "objecttype" m
      let (vs, m) := removeA "validstructs" m
      let (cm, m) := removeA "comment" m
      .ok ({ a with
              ext_sync := es
              no_auto_validity := nav
              len := lenFromAttribs len altLen
              stride := stride
              object_type := objTy
              valid_structs := vs.map splitComma
              comment := cm }, m)

/-- CommandParam::parse_attribs, in source order. -/
def commandParamParseAttribs (a : CommandParamS) (element : String) (m : AttrMap) :
    Except PError (CommandParamS × AttrMap) :=
  let (api, m) := removeA "api" m
  let a := { a with api := api }
  match (removeA "optional" m) with
  | (optRaw, m) =>
    match optRaw with
    | some s =>
      match parseBoolList s with
      | .error e => .error e
      | .ok bs => commandParamParseAttribsRest { a with optional := some bs } element m
    | none => commandParamParseAttribsRest { a with optional := none } element m

/-- The param element handler. -/
def commandParamHandler : GHandler CommandParamS where
  name := "param"
  dflt := {}
  parseAttribs := fun a el m => commandParamParseAttribs a el m
  parseChild := fun fuel a el at1 evs =>
    match genericItemParse fuel el at1 evs with
    | .ok (gi, rest) => .ok ({ a with items := a.items ++ [gi] }, rest)
    | .error e => .error e
  parseText := fun a t => .ok { a with items := a.items ++ [GenericItemS.textItem t] }

/-- ImplicitExternSyncParam (parse.rs lines 2062-2085): a text
accumulator plus a comment attribute; element name "param". -/
structure ImplicitESParamS where
  text : String := ""
  comment : Option String := none
  deriving DecidableEq

/-- The implicit param element handler. -/
def implicitESParamHandler : GHandler ImplicitESParamS where
  name := "param"
  dflt := {}
  parseAttribs := fun a _ m =>
    let (cm, m) := removeA "comment" m
    .ok ({ a with comment := cm }, m)
  parseText := fun a t => .ok { a with text := a.text ++ t }

/-- ImplicitExternSyncParams (parse.rs lines 2032-2060). -/
structure ImplicitESParamsS where
  items : List ImplicitESParamS := []
  comment : Option String := none
  deriving DecidableEq

/-- The implicitexternsyncparams element handler. -/
def implicitESParamsHandler : GHandler ImplicitESParamsS where
  name := "implicitexternsyncparams"
  dflt := {}
  parseAttribs := fun a _ m =>
    let (cm, m) := removeA "comment" m
    .ok ({ a with comment := cm }, m)
  parseChild := fun fuel a el at1 evs =>
    match parseGeneric implicitESParamHandler fuel el at1 evs with
    | .ok (p, rest) => .ok ({ a with items := a.items ++ [p] }, rest)
    | .error e => .error e

/-- CommandItem (parse.rs lines 1927-1948). -/
inductive CommandItemS where
  | commentI (c : CommentS)
  | param (p : CommandParamS)
  | implicitESParams (p : ImplicitESParamsS)
  deriving DecidableEq

/-- CommandItem::parse: dispatch on the element name; anything other
than comment, param, implicitexternsyncparams is BadChild("command", _). -/
def commandItemParse (fuel : Nat) (element : String) (attribs : AttrMap)
    (events : List Event) : Except PError (CommandItemS × List Event) :=
  match element with
  | "comment" =>
    match parseGeneric commentHandler fuel element attribs events with
    | .ok (c, rest) => .ok (.commentI c, rest)
    | .error e => .error e
  | "param" =>
    match parseGeneric commandParamHandler fuel element attribs events with
    | .ok (p, rest) => .ok (.param p, rest)
    | .error e => .error e
  | "implicitexternsyncparams" =>
    match parseGeneric implicitESParamsHandler fuel element attribs events with
    | .ok (p, rest) => .ok (.implicitESParams p, rest)
    | .error e => .error e
  | _ => .error (.badChild "command" element)

/-- DefinedCommand (parse.rs lines 1826-1842). -/
structure DefinedCommandS where
  api : Option String := none
  success_codes : Option (List String) := none
  error_codes : Option (List String) := none
  queues : Option (List String) := none
  render_pass : Option String := none
  video_coding : Option String := none
  cmd_buffer_level : Option (List String) := none
  tasks : Option (List String) := none
  proto : CommandProtoS := {}
  items : List CommandItemS := []
  comment : Option String := none
  deriving DecidableEq

/-- DefinedCommand::parse_attribs, field assignments in source order.
The source's line 1864 assigns the comma-split value of the
cmdbufferlevel attribute into self.queues (not self.cmd_buffer_level),
overwriting the value assigned from the queues attribute five lines
earlier; cmd_buffer_level itself is never assigned. -/
def definedCommandParseAttribs (a : DefinedCommandS) (m : AttrMap) :
    DefinedCommandS × AttrMap :=
  let (api, m) := removeA "api" m
  let a := { a with api := api }
  let (sc, m) := removeA "successcodes" m
  let a := { a with success_codes := sc.map splitComma }
  let (ec, m) := removeA "errorcodes" m
  let a := { a with error_codes := ec.map splitComma }
  let (q, m) := removeA "queues" m
  let a := { a with queues := q.map splitComma }
  let (rp, m) := removeA "renderpass" m
  let a := { a with render_pass := rp }
  let (vc, m) := removeA "videocoding" m
  let a := { a with video_coding := vc }
  let (cbl, m) := removeA "cmdbufferlevel" m
  let a := { a with queues := cbl.map splitComma }
  let (tk, m) := removeA "tasks" m
  let a := { a with tasks := tk.map splitComma }
  let (cm, m) := removeA "comment" m
  let a := { a with comment := cm }
  (a, m)

/-- The command element handler for the non-alias arm (DefinedCommand,
parse.rs lines 1844-1889): a proto child replaces self.proto; every
other child is dispatched through CommandItem::parse and pushed. -/
def definedCommandHandler : GHandler DefinedCommandS where
  name := "command"
  dflt := {}
  parseAttribs := fun a _ m => .ok (definedCommandParseAttribs a m)
  parseChild := fun fuel a el at1 evs =>
    if el = "proto" then
      match parseGeneric commandProtoHandler fuel el at1 evs with
      | .ok (p, rest) => .ok ({ a with proto := p }, rest)
      | .error e => .error e
    else
      match commandItemParse fuel el at1 evs with
      | .ok (ci, rest) => .ok ({ a with items := a.items ++ [ci] }, rest)
      | .error e => .error e

/-- AliasCommand (parse.rs lines 2087-2109). -/
structure AliasCommandS where
  cmdName : String := ""
  aliasName : String := ""
  comment : Option String := none
  deriving DecidableEq

/-- The command element handler for the alias arm. -/
def aliasCommandHandler : GHandler AliasCommandS where
  name := "command"
  dflt := {}
  parseAttribs := fun a el m =>
    match reqAttribA el "name" m with
    | .error e => .error e
    | .ok (nm, m) =>
      match reqAttribA el "alias" m with
      | .error e => .error e
      | .ok (al, m) =>
        let (cm, m) := removeA "comment" m
        .ok ({ a with cmdName := nm, aliasName := al, comment := cm }, m)

/-- Command (parse.rs lines 1803-1824): an alias attribute selects the
AliasCommand arm, otherwise the DefinedCommand arm. -/
inductive CommandPS where
  | defined (c : DefinedCommandS)
  | aliased (c : AliasCommandS)
  deriving DecidableEq

/-- HashMap::contains_key on the attribute map. -/
def hasKey (k : String) (m : AttrMap) : Bool := m.any (fun p => p.1 = k)

/-- Command::parse. -/
def commandParse (fuel : Nat) (element : String) (attribs : AttrMap)
    (events : List Event) : Except PError (CommandPS × List Event) :=
  if hasKey "alias" attribs then
    match parseGeneric aliasCommandHandler fuel element attribs events with
    | .ok (c, rest) => .ok (.aliased c, rest)
    | .error e => .error e
  else
    match parseGeneric definedCommandHandler fuel element attribs events with
    | .ok (c, rest) => .ok (.defined c, rest)
    | .error e => .error e

/-! ## Require-enum offset records (parse.rs lines 2595-2660). -/

/-- Dir (parse.rs lines 2645-2648). -/
inductive Dir where
  | pos
  | neg
  deriving DecidableEq

/-- FromStr for Dir: "+" and "-" only. -/
def dirFromStr (s : String) : Option Dir :=
  match s with
  | "+" => some .pos
  | "-" => some .neg
  | _ => none

/-- RequireEnumOffsetDetails (parse.rs lines 2624-2629). -/
structure OffsetDetailsS where
  ext_number : Option String := none
  offset : String := ""
  dir : Option Dir := none
  deriving DecidableEq

/-- RequireEnumOffsetDetails::parse_attribs (parse.rs lines 2631-2643):
extnumber is optional, offset is required, dir is parsed through FromStr. -/
def offsetDetailsParseAttribs (element : String) (m : AttrMap) :
    Except PError (OffsetDetailsS × AttrMap) :=
  let (en, m) := removeA "extnumber" m
  match reqAttribA element "offset" m with
  | .error e => .error e
  | .ok (off, m) =>
    match tryGetA dirFromStr element "dir" m with
    | .error e => .error e
    | .ok (d, m) => .ok ({ ext_number := en, offset := off, dir := d }, m)

/-- Modelled from the spec: the linker that applies enum require patches
is missing from the source (trans.rs's TryFrom<parse::Registry> for
repr::Vulkan is a bare todo!()). Spec §4.2.5: an offset "is resolved to a
numeric value via the formula base + (ext_number − 1) · 1000 + offset,
signed by dir ∈ {+, −}". -/
def resolveEnumOffset (base extNumber offset : Int) (dir : Dir) : Int :=
  base + (match dir with | .pos => 1 | .neg => -1) * ((extNumber - 1) * 1000 + offset)

/-! ## The indexed registry (repr.rs). -/

/-- Deprecation (repr.rs lines 3-8). -/
inductive Deprecation where
  | falseD
  | trueD
  | aliased
  | ignored
  deriving DecidableEq

/-- Handles are NonZeroUsize values; usize::MAX on the 64-bit targets the
generator builds for. -/
def USIZE_MAX : Nat := 2 ^ 64 - 1

/-- TypeHead (repr.rs lines 116-140); handle references are the Nat
payloads of the NonZero handle newtypes. -/
structure TypeHeadR where
  standard_name : String := ""
  output_name : String := ""
  deprecated : Option Deprecation := none
  requiresT : Option Nat := none
  feature : Option Nat := none
  deriving DecidableEq

/-- Decor (repr.rs lines 99-103): a C decorator chain element. -/
inductive Decor where
  | const
  | constPtr
  | mutPtr
  deriving DecidableEq

/-- DecorType (repr.rs lines 94-97). -/
structure DecorTypeR where
  handle : Nat := 0
  decors : List Decor := []
  deriving DecidableEq

/-- StructMember (repr.rs lines 191-195). -/
structure StructMemberR where
  standard_name : String := ""
  output_name : String := ""
  decor_type : DecorTypeR := {}
  deriving DecidableEq

/-- IncludeBody (repr.rs lines 154-158). -/
structure IncludeBodyR where
  header_name : String := ""
  is_local : Bool := false
  deriving DecidableEq

/-- DefineBody (repr.rs line 160). -/
structure DefineBodyR where
  deriving DecidableEq

/-- ImportedBody (repr.rs line 163). -/
structure ImportedBodyR where
  deriving DecidableEq

/-- BaseTypeBody (repr.rs lines 166-169). -/
structure BaseTypeBodyR where
  output_type : Option Nat := none
  deriving DecidableEq

/-- EnumBody (repr.rs line 171). -/
structure EnumBodyR where
  deriving DecidableEq

/-- BitmaskBody (repr.rs lines 173-177). -/
structure BitmaskBodyR where
  output_type : Option Nat := none
  bitmask_type : Option Nat := none
  deriving DecidableEq

/-- StructBody (repr.rs lines 183-189). -/
structure StructBodyR where
  returned_only : Option Bool := none
  allow_duplicate : Option Bool := none
  extends_structs : List Nat := []
  members : List StructMemberR := []
  deriving DecidableEq

/-- UnionBody (repr.rs line 197). -/
structure UnionBodyR where
  deriving DecidableEq

/-- FnPtrBody (repr.rs line 200). -/
structure FnPtrBodyR where
  deriving DecidableEq

/-- TypeBody (repr.rs lines 142-152): the nine body variants. -/
inductive TypeBodyR where
  | includeK (b : IncludeBodyR)
  | defineK (b : DefineBodyR)
  | importedK (b : ImportedBodyR)
  | baseK (b : BaseTypeBodyR)
  | enumK (b : EnumBodyR)
  | bitmaskK (b : BitmaskBodyR)
  | structK (b : StructBodyR)
  | unionK (b : UnionBodyR)
  | fnPtrK (b : FnPtrBodyR)
  deriving DecidableEq

/-- Type (repr.rs lines 105-108). -/
structure TyR where
  head : TypeHeadR := {}
  body : TypeBodyR := .importedK {}
  deriving DecidableEq

/-- HashMap::insert keyed by handles: replace the value if the key is
present, otherwise add the entry; only the key set and the length matter
to the properties proved here, so the list order of fresh inserts is
arrival order. -/
def hmInsert {α : Type} (m : List (Nat × α)) (k : Nat) (v : α) : List (Nat × α) :=
  if m.any (fun p => p.1 = k) then m.map (fun p => if p.1 = k then (k, v) else p)
  else m ++ [(k, v)]

/-- Types (repr.rs lines 40-49): the item map plus the categorization
indices and the special VkResult slot. -/
structure TypesS where
  items : List (Nat × TyR) := []
  result_type : Option Nat := none
  struct_types : List Nat := []
  union_types : List Nat := []
  enum_types : List Nat := []
  bitmask_types : List Nat := []
  deriving DecidableEq

/-- Types::next_handle (repr.rs lines 86-88):
NonZeroUsize::MIN.saturating_add(items.len()), that is min(1 + n, usize::MAX). -/
def TypesS.nextHandle (t : TypesS) : Nat := min (1 + t.items.length) USIZE_MAX

/-- The categorization step of Types::insert (repr.rs lines 66-80): a
type named VkResult fills result_type; otherwise the body variant decides
which index gets the handle pushed — and the Union arm pushes nothing
(TypeBody::Union(_) => {} in the source), as does FnPtr and the four
header-ish variants. -/
def TypesS.categorize (t : TypesS) (handle : Nat) (ty : TyR) : TypesS :=
  if ty.head.standard_name = "VkResult" then { t with result_type := some handle }
  else
    match ty.body with
    | .includeK _ => t
    | .defineK _ => t
    | .importedK _ => t
    | .baseK _ => t
    | .enumK _ => { t with enum_types := t.enum_types ++ [handle] }
    | .bitmaskK _ => { t with bitmask_types := t.bitmask_types ++ [handle] }
    | .structK _ => { t with struct_types := t.struct_types ++ [handle] }
    | .unionK _ => t
    | .fnPtrK _ => t

/-- Types::insert (repr.rs lines 63-84): allocate the next handle,
categorize, insert into the item map, return the handle. -/
def TypesS.insert (t : TypesS) (ty : TyR) : TypesS × Nat :=
  let handle := t.nextHandle
  let t2 := t.categorize handle ty
  ({ t2 with items := hmInsert t2.items handle ty }, handle)

/-- Fold Types::insert over a list of types, collecting returned handles. -/
def TypesS.insertAll (t : TypesS) : List TyR → TypesS × List Nat
  | [] => (t, [])
  | ty :: rest =>
    let (t1, h) := t.insert ty
    let (t2, hs) := t1.insertAll rest
    (t2, h :: hs)

/-- EnumValue (repr.rs line 213). -/
structure EnumValueR where
  deriving DecidableEq

/-- Enum (repr.rs lines 208-211). -/
structure EnumR where
  values : List EnumValueR := []
  deriving DecidableEq

/-- Enums (repr.rs lines 203-206). -/
structure EnumsS where
  items : List EnumR := []
  deriving DecidableEq

/-- CommandInfo (repr.rs lines 227-230). -/
structure CommandInfoR where
  standard_name : String := ""
  output_name : String := ""
  deriving DecidableEq

/-- Command (repr.rs lines 223-225). -/
structure CommandR where
  info : CommandInfoR := {}
  deriving DecidableEq

/-- Commands (repr.rs lines 215-218): a handle-keyed map. -/
structure CommandsS where
  items : List (Nat × CommandR) := []
  deriving DecidableEq

/-- Modelled from the spec: repr.rs declares the command table but no
insert for it, and the linker that would populate it (trans.rs) is a
todo!(). Spec §4.2.2: handle creation is "identical for command and
feature tables" — NonZero(1 + n) with n the current table size. -/
def CommandsS.nextHandle (t : CommandsS) : Nat := min (1 + t.items.length) USIZE_MAX

/-- Modelled from the spec: insert into the command table, handle
allocation identical to Types::insert. -/
def CommandsS.insert (t : CommandsS) (c : CommandR) : CommandsS × Nat :=
  let handle := t.nextHandle
  ({ items := hmInsert t.items handle c }, handle)

/-- Fold the modelled command insert over a list. -/
def CommandsS.insertAll (t : CommandsS) : List CommandR → CommandsS × List Nat
  | [] => (t, [])
  | c :: rest =>
    let (t1, h) := t.insert c
    let (t2, hs) := t1.insertAll rest
    (t2, h :: hs)

/-- FeatureHeader (repr.rs lines 249-252). -/
structure FeatureHeaderR where
  standard_name : String := ""
  output_name : String := ""
  deriving DecidableEq

/-- Feature (repr.rs lines 245-247). -/
structure FeatureR where
  header : FeatureHeaderR := {}
  deriving DecidableEq

/-- Features (repr.rs lines 232-240): a handle-keyed map. -/
structure FeaturesS where
  items : List (Nat × FeatureR) := []
  deriving DecidableEq

/-- Modelled from the spec: handle allocation for the feature table,
identical to the type and command tables (spec §4.2.2). -/
def FeaturesS.nextHandle (t : FeaturesS) : Nat := min (1 + t.items.length) USIZE_MAX

/-- Modelled from the spec: insert into the feature table. -/
def FeaturesS.insert (t : FeaturesS) (f : FeatureR) : FeaturesS × Nat :=
  let handle := t.nextHandle
  ({ items := hmInsert t.items handle f }, handle)

/-- Fold the modelled feature insert over a list. -/
def FeaturesS.insertAll (t : FeaturesS) : List FeatureR → FeaturesS × List Nat
  | [] => (t, [])
  | f :: rest =>
    let (t1, h) := t.insert f
    let (t2, hs) := t1.insertAll rest
    (t2, h :: hs)

/-- Vulkan (repr.rs lines 10-16): the four tables. -/
structure VulkanS where
  types : TypesS := {}
  enums : EnumsS := {}
  commands : CommandsS := {}
  features : FeaturesS := {}
  deriving DecidableEq

/-- Vulkan::has_result (repr.rs lines 19-21). -/
def VulkanS.has_result (v : VulkanS) : Bool := v.types.result_type.isSome

/-- Vulkan::has_enums (repr.rs lines 23-25). -/
def VulkanS.has_enums (v : VulkanS) : Bool := !v.types.enum_types.isEmpty

/-- Vulkan::has_structs (repr.rs lines 27-29). -/
def VulkanS.has_structs (v : VulkanS) : Bool := !v.types.struct_types.isEmpty

/-- Vulkan::has_unions (repr.rs lines 31-33). -/
def VulkanS.has_unions (v : VulkanS) : Bool := !v.types.union_types.isEmpty

/-- Vulkan::has_commands (repr.rs lines 35-37). -/
def VulkanS.has_commands (v : VulkanS) : Bool := !v.commands.items.isEmpty

/-! ## The emitter's file-system footprint (emit.rs lines 20-169). -/

/-- The files Vulkan::emit creates under the output directory, in call
order: emit_root_module always File::create-s mod.rs (even when it then
writes nothing), and each submodule file is created iff its metadata
flag is set (emit.rs lines 20-40; the submodule file names come from the
File::create calls at lines 108, 115, 122, 129, 165). -/
def VulkanS.emittedFiles (v : VulkanS) : List String :=
  ["mod.rs"]
    ++ (if v.has_commands then ["cmds.rs"] else [])
    ++ (if v.has_enums then ["enums.rs"] else [])
    ++ (if v.has_result then ["result.rs"] else [])
    ++ (if v.has_structs then ["structs.rs"] else [])
    ++ (if v.has_unions then ["unions.rs"] else [])

/-- The submodule list of root_module_head (emit.rs lines 52-68); the
head is Some (and bytes are written into mod.rs) iff this is nonempty. -/
def VulkanS.rootSubmodules (v : VulkanS) : List String :=
  (if v.has_commands then ["commands"] else [])
    ++ (if v.has_enums then ["enums"] else [])
    ++ (if v.has_result then ["result"] else [])
    ++ (if v.has_structs then ["structs"] else [])
    ++ (if v.has_unions then ["unions"] else [])

/-- Whether emit_root_module writes any bytes into mod.rs: exactly when
root_module_head returns Some, i.e. when some submodule exists. -/
def VulkanS.modRsBytesWritten (v : VulkanS) : Bool := !v.rootSubmodules.isEmpty

/-! ## The emitter's type view (emit.rs lines 136-231).

emit.rs imports TypeInfo, TypeKind and StructType from repr, but repr.rs
in the source tree is a different draft that spells these TypeHead,
TypeBody and StructBody; the records below are therefore modelled from
the spec (§3.2) and from how emit.rs reads their fields. The functions on
them (decorated_name, screaming_name, default_value, the struct-module
iteration) are translated from emit.rs itself. -/

/-- Modelled from the spec: the head of an indexed type as the emitter
reads it — standard name, output name, optional introducing feature
(spec §3.2; emit.rs uses info.standard_name, info.output_name,
info.feature). -/
structure TypeInfo where
  standard_name : String := ""
  output_name : String := ""
  feature : Option Nat := none
  deriving DecidableEq

/-- Modelled from the spec: the struct body as the emitter reads it —
its member list (spec §3.2; emit.rs iterates self.members). -/
structure StructTypeE where
  members : List StructMemberR := []
  deriving DecidableEq

/-- Modelled from the spec: the body variant of an indexed type as the
emitter's filter reads it (spec §3.2); only the Struct arm carries data
the emitter uses here. -/
inductive TypeKind where
  | includeK (b : IncludeBodyR)
  | defineK (b : DefineBodyR)
  | importedK (b : ImportedBodyR)
  | baseK (b : BaseTypeBodyR)
  | enumK (b : EnumBodyR)
  | bitmaskK (b : BitmaskBodyR)
  | structK (b : StructTypeE)
  | unionK (b : UnionBodyR)
  | fnPtrK (b : FnPtrBodyR)
  deriving DecidableEq

/-- Modelled from the spec: an indexed type as the emitter reads it,
info plus kind. -/
structure TyE where
  info : TypeInfo := {}
  kind : TypeKind := .importedK {}
  deriving DecidableEq

/-- The declared-type token string one decorator contributes
(the match arms inside TypeInfo::decorated_name, emit.rs lines 179-185):
Const leaves the tokens unchanged, ConstPtr prepends *const, MutPtr
prepends *mut. -/
def decorApply (d : Decor) (res : String) : String :=
  match d with
  | .const => res
  | .constPtr => "*const " ++ res
  | .mutPtr => "*mut " ++ res

/-- TypeInfo::decorated_name (emit.rs lines 172-188): start from the
output name and walk the decorator chain in reverse
(decors.iter().rev()), wrapping the token string at each step. -/
def TypeInfo.decoratedName (info : TypeInfo) (decors : List Decor) : String :=
  decors.reverse.foldl (fun res d => decorApply d res) info.output_name

/-- Vec::join("_") at the character level. -/
def joinUnderscore : List (List Char) → List Char
  | [] => []
  | [x] => x
  | x :: xs => x ++ '_' :: joinUnderscore xs

/-- TypeInfo::screaming_name (emit.rs lines 190-196): split the output
name on every ascii-uppercase character (the uppercase characters
themselves are consumed as separators), uppercase each segment, join
with underscores. -/
def TypeInfo.screamingName (info : TypeInfo) : String :=
  ⟨joinUnderscore
    ((rustSplit (fun ch => ch.isUpper) info.output_name.data).map
      (fun seg => seg.map Char.toUpper))⟩

/-- TypeInfo::default_value (emit.rs lines 213-230): the outermost
decorator (decors.iter().rev().next(), i.e. the last of the stored
chain) decides — const pointers default to std::ptr::null(), mut
pointers to std::ptr::null_mut(); otherwise a member whose type's
standard name is VkStructureType defaults to the enumerant named by the
member type's own screaming_name, and everything else to
Default::default(). -/
def TypeInfo.defaultValue (info : TypeInfo) (decors : List Decor) : String :=
  match decors.getLast? with
  | some .constPtr => "std::ptr::null()"
  | some .mutPtr => "std::ptr::null_mut()"
  | _ =>
    if info.standard_name = "VkStructureType" then
      "vk::StructureType::" ++ info.screamingName
    else "Default::default()"

/-- The struct-definition order of emit_structs_module_body (emit.rs
lines 136-149): iterate the types.items map in its iteration order,
keep the entries whose kind is Struct, and emit each one's definition in
that order. This abstraction records the output names in emission
order; the bytes of structs.rs list the definitions in exactly this
order. -/
def structsModuleNames (items : List (Nat × TyE)) : List String :=
  items.filterMap (fun p =>
    match p.2.kind with
    | .structK _ => some p.2.info.output_name
    | _ => none)

/-- C4 entries: a types map holding two structs, in one iteration order. -/
def c4EntriesA : List (Nat × TyE) :=
  [(1, { info := ⟨"VkFoo", "Foo", none⟩, kind := .structK {} }),
   (2, { info := ⟨"VkBar", "Bar", none⟩, kind := .structK {} })]

/-- C4 entries: the same map contents in the other iteration order. -/
def c4EntriesB : List (Nat × TyE) :=
  [(2, { info := ⟨"VkBar", "Bar", none⟩, kind := .structK {} }),
   (1, { info := ⟨"VkFoo", "Foo", none⟩, kind := .structK {} })]

/-- C7 failing input: a union type inserted into an empty type table. -/
def c7UnionTy : TyR :=
  { head := { standard_name := "VkUnionThing", output_name := "UnionThing" },
    body := .unionK {} }

/-- C10 witness result value. -/
def c10Res : DefinedCommandS := { queues := some ["primary"] }


/-! ## Theorems -/

/-- C1: the depends-attribute parser does not follow the stated grammar.
Evaluating Depends::from_str on the claim's own inputs: "A+B,C" parses to
And([Feature("A"), Feature("B,C")]) because parse_and scans for '+'
across commas and then swallows the rest of the stream into one feature
name, and "(A,B)+C" parses to And([Feature("A,B)"), Feature("C")])
because no code path ever consumes a closing parenthesis. Both disagree
with the results the claim states. -/
theorem c1_depends_parser_diverges :
    dependsFromStr "A+B,C" = some (.and [.feature "A", .feature "B,C"]) ∧
    dependsFromStr "(A,B)+C" = some (.and [.feature "A,B)", .feature "C"]) ∧
    Depends.and [Depends.feature "A", Depends.feature "B,C"] ≠
      Depends.or [Depends.and [Depends.feature "A", Depends.feature "B"],
        Depends.feature "C"] ∧
    Depends.and [Depends.feature "A,B)", Depends.feature "C"] ≠
      Depends.and [Depends.or [Depends.feature "A", Depends.feature "B"],
        Depends.feature "C"] := by
  refine ⟨rfl, rfl, fun h => Depends.noConfusion h, fun h => ?_⟩
  simp only [Depends.and.injEq, List.cons.injEq] at h
  exact Depends.noConfusion h.1

/-- C3: the require-enum offset attributes parse as stated
(RequireEnumOffsetDetails::parse_attribs, Dir::from_str), and the
spec-modelled offset resolution base + (ext_number − 1) · 1000 + offset
signed by dir gives base + 3003 at offset=3, ext_number=4, dir=+.
The linker that would apply the patch is a todo!() in trans.rs, so the
formula itself is modelled from spec §4.2.5. -/
theorem c3_enum_offset_formula :
    offsetDetailsParseAttribs "enum" [("offset", "3"), ("extnumber", "4"), ("dir", "+")] =
      .ok ({ ext_number := some "4", offset := "3", dir := some Dir.pos }, []) ∧
    dirFromStr "+" = some Dir.pos ∧
    ∀ base : Int, resolveEnumOffset base 4 3 Dir.pos = base + 3003 := by
  refine ⟨rfl, rfl, fun base => ?_⟩
  unfold resolveEnumOffset
  norm_num

/-- C4: emission is not deterministic across runs.
emit_structs_module_body walks types.items — a std::collections::HashMap
whose iteration order depends on the per-process random hash seed — and
writes the struct definitions in that order. The two entry lists below
are permutations of each other (the same map contents, two of its
possible iteration orders), yet the structs module lists the definitions
in different orders, so the bytes of structs.rs differ between such
runs. -/
theorem c4_structs_order_depends_on_map_order :
    List.Perm c4EntriesA c4EntriesB ∧
    structsModuleNames c4EntriesA = ["Foo", "Bar"] ∧
    structsModuleNames c4EntriesB = ["Bar", "Foo"] ∧
    structsModuleNames c4EntriesA ≠ structsModuleNames c4EntriesB := by
  refine ⟨?_, rfl, rfl, by decide⟩
  unfold c4EntriesA c4EntriesB
  exact List.Perm.swap _ _ _

/-- C5 counterexample: the decorator chain [Const, ConstPtr, MutPtr] over
base type T is emitted as *const *mut T, not as the claimed
*mut *const T — decorated_name iterates the chain reversed, so the
chain's last element wraps innermost. -/
theorem c5_decorated_name_counterexample :
    TypeInfo.decoratedName ⟨"T", "T", none⟩ [Decor.const, Decor.constPtr, Decor.mutPtr] =
      "*const *mut T" ∧
    "*const *mut T" ≠ "*mut *const T" := ⟨rfl, by decide⟩

/-- C5 amended: the emitter builds the declared member type by applying
the stored outside-in decorator chain in reverse to the base type's
output name — appending a decorator to the chain wraps the base before
the rest of the chain applies — and in particular [Const, ConstPtr,
MutPtr] over T yields *const *mut T (the claimed *mut *const T is
produced by the reversed chain [MutPtr, ConstPtr, Const]). -/
theorem c5_decorated_name_amended :
    (∀ (info : TypeInfo) (ds : List Decor) (d : Decor),
      info.decoratedName (ds ++ [d]) =
        TypeInfo.decoratedName
          ⟨info.standard_name, decorApply d info.output_name, info.feature⟩ ds) ∧
    TypeInfo.decoratedName ⟨"T", "T", none⟩ [Decor.const, Decor.constPtr, Decor.mutPtr] =
      "*const *mut T" ∧
    TypeInfo.decoratedName ⟨"T", "T", none⟩ [Decor.mutPtr, Decor.constPtr, Decor.const] =
      "*mut *const T" := by
  refine ⟨fun info ds d => ?_, rfl, rfl⟩
  simp [TypeInfo.decoratedName]

/-- C6: the SCREAMING_CASE conversion does not split at upper-case
transitions — str::split with an is_ascii_uppercase predicate consumes
the uppercase characters as separators — and default_value computes it
from the member type's own output name, not the containing struct's.
Evaluating the code: the screaming name of ApplicationInfo is
_PPLICATION_NFO (not APPLICATION_INFO), and the default emitted for any
VkStructureType member is vk::StructureType::_TRUCTURE_YPE regardless of
the struct it sits in. -/
theorem c6_screaming_name_diverges :
    TypeInfo.screamingName ⟨"VkApplicationInfo", "ApplicationInfo", none⟩ =
      "_PPLICATION_NFO" ∧
    TypeInfo.defaultValue ⟨"VkStructureType", "StructureType", none⟩ [] =
      "vk::StructureType::_TRUCTURE_YPE" ∧
    "_PPLICATION_NFO" ≠ "APPLICATION_INFO" ∧
    "vk::StructureType::_TRUCTURE_YPE" ≠ "vk::StructureType::APPLICATION_INFO" :=
  ⟨rfl, rfl, by decide, by decide⟩

/-- C7: has_unions is not derived from union insertions — the Union arm
of Types::insert pushes nothing into union_types (TypeBody::Union(_) =>
{} in the source), so after inserting a union type the flag is still
false and the emitter creates no unions module; the emitter side of the
claim does hold (the unions file is created exactly when the flag is
set). -/
theorem c7_has_unions_stays_false :
    VulkanS.has_unions { types := (TypesS.insert {} c7UnionTy).1 } = false ∧
    "unions.rs" ∉ VulkanS.emittedFiles { types := (TypesS.insert {} c7UnionTy).1 } ∧
    ∀ v : VulkanS, "unions.rs" ∈ v.emittedFiles ↔ v.has_unions = true := by
  refine ⟨rfl, by decide, fun v => ?_⟩
  simp only [VulkanS.emittedFiles, List.mem_append, List.mem_cons, List.not_mem_nil]
  split_ifs <;> simp_all

/-- C8 counterexample: the all-flags-false registry still produces a
file — emit_root_module unconditionally File::create-s mod.rs before
deciding whether to write anything into it, so the created-file list is
["mod.rs"], not empty. -/
theorem c8_mod_rs_always_created :
    VulkanS.has_commands {} = false ∧ VulkanS.has_enums {} = false ∧
    VulkanS.has_result {} = false ∧ VulkanS.has_structs {} = false ∧
    VulkanS.has_unions {} = false ∧
    VulkanS.emittedFiles {} ≠ [] :=
  ⟨rfl, rfl, rfl, rfl, rfl, by decide⟩

/-- C8 amended: when every metadata flag of the indexed registry is
false, emit succeeds and creates exactly one file — an empty mod.rs (no
bytes are written into it, since root_module_head is None) — and no
submodule file. -/
theorem c8_amended_empty_emit (v : VulkanS)
    (hc : v.has_commands = false) (he : v.has_enums = false)
    (hr : v.has_result = false) (hs : v.has_structs = false)
    (hu : v.has_unions = false) :
    v.emittedFiles = ["mod.rs"] ∧ v.modRsBytesWritten = false := by
  constructor
  · simp [VulkanS.emittedFiles, hc, he, hr, hs, hu]
  · simp [VulkanS.modRsBytesWritten, VulkanS.rootSubmodules, hc, he, hr, hs, hu]

/-- C8 amended, witness: the empty registry value. -/
theorem c8_amended_empty_emit_witness :
    VulkanS.emittedFiles {} = ["mod.rs"] ∧ VulkanS.modRsBytesWritten {} = false :=
  c8_amended_empty_emit {} rfl rfl rfl rfl rfl

/-- C2 amended: attribute exhaustion holds for every handler driven
through the blanket Parse impl — a successful parse implies parse_attribs
left the map empty, and a leftover attribute makes the parse fail with
UnreadAttrib(element, attribute, value) — but not for the mixed-content
children, which GenericItem's own Parse impl handles while ignoring the
attribute map (see the counterexample theorem). -/
theorem c2_generic_attrib_exhaustion :
    (∀ (α : Type) (g : GHandler α) (fuel : Nat) (el : String) (m : AttrMap)
        (evs : List Event) (res : α × List Event),
      parseGeneric g fuel el m evs = .ok res →
        ∃ a, g.parseAttribs g.dflt el m = .ok (a, ([] : AttrMap))) ∧
    (∀ (α : Type) (g : GHandler α) (fuel : Nat) (m : AttrMap) (evs : List Event)
        (a : α) (k v : String) (rest : AttrMap),
      g.parseAttribs g.dflt g.name m = .ok (a, (k, v) :: rest) →
        parseGeneric g fuel g.name m evs = .error (.unreadAttrib g.name k v)) := by
  constructor
  · intro α g fuel el m evs res h
    unfold parseGeneric at h
    by_cases hel : el = g.name
    · rw [if_neg (by simp [hel])] at h
      cases hpa : g.parseAttribs g.dflt el m with
      | error e => rw [hpa] at h; cases h
      | ok pair =>
        obtain ⟨a, rest⟩ := pair
        rw [hpa] at h
        cases rest with
        | nil => exact ⟨a, rfl⟩
        | cons p t => obtain ⟨k, v⟩ := p; cases h
    · rw [if_pos hel] at h; cases h
  · intro α g fuel m evs a k v rest hpa
    unfold parseGeneric
    rw [if_neg (by simp), hpa]

/-- C2 amended, witness: the comment handler at concrete inputs — a
successful parse of an attribute-free comment element, and the
UnreadAttrib failure when a stray attribute is present. -/
theorem c2_generic_attrib_exhaustion_witness :
    (∃ a, commentHandler.parseAttribs commentHandler.dflt "comment" ([] : AttrMap) =
      .ok (a, ([] : AttrMap))) ∧
    parseGeneric commentHandler 1 "comment" [("foo", "bar")] [] =
      .error (.unreadAttrib "comment" "foo" "bar") :=
  ⟨c2_generic_attrib_exhaustion.1 _ commentHandler 1 "comment" []
      [Event.endElement "comment"] (⟨""⟩, []) rfl,
   c2_generic_attrib_exhaustion.2 _ commentHandler 1 [("foo", "bar")] []
      ⟨""⟩ "foo" "bar" [] rfl⟩

/-- C2 counterexample: a mixed-content child parses successfully while
carrying an attribute no handler consumed — GenericItem::parse binds its
attribute map parameter to an underscore, so a name element with a stray
foo="bar" attribute still parses. -/
theorem c2_generic_item_ignores_attribs :
    genericItemParse 1 "name" [("foo", "bar")] [Event.endElement "name"] =
      .ok ({ text := "", kind := GenericItemKind.name }, []) ∧
    ([("foo", "bar")] : AttrMap) ≠ [] := ⟨rfl, by decide⟩

/-- The categorization step of Types::insert never touches the item map. -/
lemma categorize_items (t : TypesS) (h : Nat) (ty : TyR) :
    (t.categorize h ty).items = t.items := by
  unfold TypesS.categorize
  split
  · rfl
  · split <;> rfl

/-- Inserting under a key absent from the map appends the entry. -/
lemma hmInsert_fresh {α : Type} (m : List (Nat × α)) (k : Nat) (v : α)
    (hk : ∀ p ∈ m, p.1 ≠ k) : hmInsert m k v = m ++ [(k, v)] := by
  have hnone : ¬(m.any (fun p => decide (p.1 = k)) = true) := by
    intro hcon
    rw [List.any_eq_true] at hcon
    obtain ⟨p, hp, hpk⟩ := hcon
    exact hk p hp (of_decide_eq_true hpk)
  unfold hmInsert
  rw [if_neg hnone]

/-- Types::insert returns the handle next_handle computed before the
insertion. -/
lemma typesInsert_snd (t : TypesS) (ty : TyR) : (t.insert ty).2 = t.nextHandle := rfl

/-- When the allocated handle is fresh, Types::insert appends one entry
to the item map. -/
lemma typesInsert_items (t : TypesS) (ty : TyR)
    (hk : ∀ p ∈ t.items, p.1 ≠ t.nextHandle) :
    (t.insert ty).1.items = t.items ++ [(t.nextHandle, ty)] := by
  show hmInsert (t.categorize t.nextHandle ty).items t.nextHandle ty = _
  rw [categorize_items, hmInsert_fresh _ _ _ hk]

/-- Unfolding lemma for the insert fold. -/
lemma typesInsertAll_cons (t : TypesS) (ty : TyR) (rest : List TyR) :
    t.insertAll (ty :: rest) =
      (((t.insert ty).1.insertAll rest).1,
        (t.insert ty).2 :: ((t.insert ty).1.insertAll rest).2) := rfl

/-- Handle allocation over the type table: starting from a table whose
keys all lie in 1..n, inserting a list of types returns the handles
n+1, n+2, ... in order and grows the table by one entry each time. -/
lemma typesInsertAll_handles (ts : List TyR) :
    ∀ t : TypesS,
      (∀ p ∈ t.items, 1 ≤ p.1 ∧ p.1 ≤ t.items.length) →
      t.items.length + ts.length ≤ USIZE_MAX →
      (t.insertAll ts).2 = List.range' (t.items.length + 1) ts.length ∧
      (t.insertAll ts).1.items.length = t.items.length + ts.length := by
  induction ts with
  | nil => exact fun t _ _ => ⟨rfl, rfl⟩
  | cons ty rest ih =>
    intro t hinv hb
    have hb1 : 1 + t.items.length ≤ USIZE_MAX := by
      simp only [List.length_cons] at hb
      omega
    have hnh : t.nextHandle = t.items.length + 1 := by
      unfold TypesS.nextHandle
      rw [Nat.min_eq_left hb1]
      omega
    have hfresh : ∀ p ∈ t.items, p.1 ≠ t.nextHandle := by
      intro p hp
      have h2 := (hinv p hp).2
      rw [hnh]
      omega
    have hitems : (t.insert ty).1.items = t.items ++ [(t.nextHandle, ty)] :=
      typesInsert_items t ty hfresh
    have hlen1 : (t.insert ty).1.items.length = t.items.length + 1 := by
      rw [hitems]
      simp
    have hinv1 : ∀ p ∈ (t.insert ty).1.items,
        1 ≤ p.1 ∧ p.1 ≤ (t.insert ty).1.items.length := by
      intro p hp
      rw [hitems] at hp
      rw [hlen1]
      rcases List.mem_append.mp hp with hp | hp
      · have := hinv p hp
        omega
      · have : p = (t.nextHandle, ty) := List.mem_singleton.mp hp
        subst this
        rw [hnh]
        omega
    have hb2 : (t.insert ty).1.items.length + rest.length ≤ USIZE_MAX := by
      rw [hlen1]
      simp only [List.length_cons] at hb
      omega
    obtain ⟨ihh, ihl⟩ := ih (t.insert ty).1 hinv1 hb2
    constructor
    · rw [typesInsertAll_cons]
      show t.nextHandle :: ((t.insert ty).1.insertAll rest).2 = _
      rw [hnh, ihh, hlen1]
      simp only [List.length_cons, List.range'_succ]
    · rw [typesInsertAll_cons]
      show ((t.insert ty).1.insertAll rest).1.items.length = _
      rw [ihl, hlen1]
      simp only [List.length_cons]
      omega

/-- Unfolding lemma for the modelled command-table insert fold. -/
lemma cmdsInsertAll_cons (t : CommandsS) (c : CommandR) (rest : List CommandR) :
    t.insertAll (c :: rest) =
      (((t.insert c).1.insertAll rest).1,
        (t.insert c).2 :: ((t.insert c).1.insertAll rest).2) := rfl

/-- Handle allocation over the modelled command table. -/
lemma cmdsInsertAll_handles (cs : List CommandR) :
    ∀ t : CommandsS,
      (∀ p ∈ t.items, 1 ≤ p.1 ∧ p.1 ≤ t.items.length) →
      t.items.length + cs.length ≤ USIZE_MAX →
      (t.insertAll cs).2 = List.range' (t.items.length + 1) cs.length ∧
      (t.insertAll cs).1.items.length = t.items.length + cs.length := by
  induction cs with
  | nil => exact fun t _ _ => ⟨rfl, rfl⟩
  | cons c rest ih =>
    intro t hinv hb
    have hb1 : 1 + t.items.length ≤ USIZE_MAX := by
      simp only [List.length_cons] at hb
      omega
    have hnh : t.nextHandle = t.items.length + 1 := by
      unfold CommandsS.nextHandle
      rw [Nat.min_eq_left hb1]
      omega
    have hfresh : ∀ p ∈ t.items, p.1 ≠ t.nextHandle := by
      intro p hp
      have h2 := (hinv p hp).2
      rw [hnh]
      omega
    have hitems : (t.insert c).1.items = t.items ++ [(t.nextHandle, c)] := by
      show hmInsert t.items t.nextHandle c = _
      rw [hmInsert_fresh _ _ _ hfresh]
    have hlen1 : (t.insert c).1.items.length = t.items.length + 1 := by
      rw [hitems]
      simp
    have hinv1 : ∀ p ∈ (t.insert c).1.items,
        1 ≤ p.1 ∧ p.1 ≤ (t.insert c).1.items.length := by
      intro p hp
      rw [hitems] at hp
      rw [hlen1]
      rcases List.mem_append.mp hp with hp | hp
      · have := hinv p hp
        omega
      · have : p = (t.nextHandle, c) := List.mem_singleton.mp hp
        subst this
        rw [hnh]
        omega
    have hb2 : (t.insert c).1.items.length + rest.length ≤ USIZE_MAX := by
      rw [hlen1]
      simp only [List.length_cons] at hb
      omega
    obtain ⟨ihh, ihl⟩ := ih (t.insert c).1 hinv1 hb2
    constructor
    · rw [cmdsInsertAll_cons]
      show t.nextHandle :: ((t.insert c).1.insertAll rest).2 = _
      rw [hnh, ihh, hlen1]
      simp only [List.length_cons, List.range'_succ]
    · rw [cmdsInsertAll_cons]
      show ((t.insert c).1.insertAll rest).1.items.length = _
      rw [ihl, hlen1]
      simp only [List.length_cons]
      omega

/-- Unfolding lemma for the modelled feature-table insert fold. -/
lemma featsInsertAll_cons (t : FeaturesS) (f : FeatureR) (rest : List FeatureR) :
    t.insertAll (f :: rest) =
      (((t.insert f).1.insertAll rest).1,
        (t.insert f).2 :: ((t.insert f).1.insertAll rest).2) := rfl

/-- Handle allocation over the modelled feature table. -/
lemma featsInsertAll_handles (fs : List FeatureR) :
    ∀ t : FeaturesS,
      (∀ p ∈ t.items, 1 ≤ p.1 ∧ p.1 ≤ t.items.length) →
      t.items.length + fs.length ≤ USIZE_MAX →
      (t.insertAll fs).2 = List.range' (t.items.length + 1) fs.length ∧
      (t.insertAll fs).1.items.length = t.items.length + fs.length := by
  induction fs with
  | nil => exact fun t _ _ => ⟨rfl, rfl⟩
  | cons f rest ih =>
    intro t hinv hb
    have hb1 : 1 + t.items.length ≤ USIZE_MAX := by
      simp only [List.length_cons] at hb
      omega
    have hnh : t.nextHandle = t.items.length + 1 := by
      unfold FeaturesS.nextHandle
      rw [Nat.min_eq_left hb1]
      omega
    have hfresh : ∀ p ∈ t.items, p.1 ≠ t.nextHandle := by
      intro p hp
      have h2 := (hinv p hp).2
      rw [hnh]
      omega
    have hitems : (t.insert f).1.items = t.items ++ [(t.nextHandle, f)] := by
      show hmInsert t.items t.nextHandle f = _
      rw [hmInsert_fresh _ _ _ hfresh]
    have hlen1 : (t.insert f).1.items.length = t.items.length + 1 := by
      rw [hitems]
      simp
    have hinv1 : ∀ p ∈ (t.insert f).1.items,
        1 ≤ p.1 ∧ p.1 ≤ (t.insert f).1.items.length := by
      intro p hp
      rw [hitems] at hp
      rw [hlen1]
      rcases List.mem_append.mp hp with hp | hp
      · have := hinv p hp
        omega
      · have : p = (t.nextHandle, f) := List.mem_singleton.mp hp
        subst this
        rw [hnh]
        omega
    have hb2 : (t.insert f).1.items.length + rest.length ≤ USIZE_MAX := by
      rw [hlen1]
      simp only [List.length_cons] at hb
      omega
    obtain ⟨ihh, ihl⟩ := ih (t.insert f).1 hinv1 hb2
    constructor
    · rw [featsInsertAll_cons]
      show t.nextHandle :: ((t.insert f).1.insertAll rest).2 = _
      rw [hnh, ihh, hlen1]
      simp only [List.length_cons, List.range'_succ]
    · rw [featsInsertAll_cons]
      show ((t.insert f).1.insertAll rest).1.items.length = _
      rw [ihl, hlen1]
      simp only [List.length_cons]
      omega

/-- C9: handle allocation is monotonic and collision-free. The next
handle is always nonzero; for every type table whose size has not
saturated usize it equals 1 + n with n the number of live entries; and
folding insert over any list of types from the empty table returns the
handle sequence 1, 2, ..., len — pairwise distinct, never reissued. The
same holds for the command and feature tables (whose inserts are
modelled from spec §4.2.2, the linker being unimplemented in trans.rs). -/
theorem c9_handle_allocation :
    (∀ t : TypesS, 1 ≤ t.nextHandle) ∧
    (∀ t : TypesS, t.items.length + 1 ≤ USIZE_MAX →
      t.nextHandle = 1 + t.items.length) ∧
    (∀ ts : List TyR, ts.length ≤ USIZE_MAX →
      (TypesS.insertAll {} ts).2 = List.range' 1 ts.length ∧
      (TypesS.insertAll {} ts).2.Nodup) ∧
    (∀ cs : List CommandR, cs.length ≤ USIZE_MAX →
      (CommandsS.insertAll {} cs).2 = List.range' 1 cs.length ∧
      (CommandsS.insertAll {} cs).2.Nodup) ∧
    (∀ fs : List FeatureR, fs.length ≤ USIZE_MAX →
      (FeaturesS.insertAll {} fs).2 = List.range' 1 fs.length ∧
      (FeaturesS.insertAll {} fs).2.Nodup) := by
  refine ⟨fun t => ?_, fun t h => ?_, fun ts h => ?_, fun cs h => ?_, fun fs h => ?_⟩
  · unfold TypesS.nextHandle
    refine Nat.le_min.mpr ⟨by omega, by norm_num [USIZE_MAX]⟩
  · unfold TypesS.nextHandle
    rw [Nat.min_eq_left (by omega)]
  · have hmain := typesInsertAll_handles ts {} (by simp) (by simpa using h)
    refine ⟨by simpa using hmain.1, ?_⟩
    rw [hmain.1]
    exact List.nodup_range' _ _ 1 (by norm_num)
  · have hmain := cmdsInsertAll_handles cs {} (by simp) (by simpa using h)
    refine ⟨by simpa using hmain.1, ?_⟩
    rw [hmain.1]
    exact List.nodup_range' _ _ 1 (by norm_num)
  · have hmain := featsInsertAll_handles fs {} (by simp) (by simpa using h)
    refine ⟨by simpa using hmain.1, ?_⟩
    rw [hmain.1]
    exact List.nodup_range' _ _ 1 (by norm_num)

/-- C9 witness: concrete tables — the empty table's next handle is 1,
and two inserts return the distinct handles 1 and 2 (likewise for the
command and feature tables). -/
theorem c9_handle_allocation_witness :
    TypesS.nextHandle {} = 1 ∧
    (TypesS.insertAll {} [{}, {}]).2 = [1, 2] ∧
    (TypesS.insertAll {} [{}, {}]).2.Nodup ∧
    (CommandsS.insertAll {} [{}]).2 = [1] ∧
    (FeaturesS.insertAll {} [{}]).2 = [1] := by
  have h1 := c9_handle_allocation.2.1 ({} : TypesS) (by norm_num [USIZE_MAX])
  have h2 := c9_handle_allocation.2.2.1 [({} : TyR), {}] (by norm_num [USIZE_MAX])
  have h3 := c9_handle_allocation.2.2.2.1 [({} : CommandR)] (by norm_num [USIZE_MAX])
  have h4 := c9_handle_allocation.2.2.2.2 [({} : FeatureR)] (by norm_num [USIZE_MAX])
  exact ⟨h1, h2.1, h2.2, h3.1, h4.1⟩

/-- DefinedCommand::parse_attribs never assigns cmd_buffer_level. -/
lemma definedCommandParseAttribs_cbl (a : DefinedCommandS) (m : AttrMap) :
    (definedCommandParseAttribs a m).1.cmd_buffer_level = a.cmd_buffer_level := rfl

/-- DefinedCommand::parse_child only replaces proto or pushes an item;
cmd_buffer_level is untouched. -/
lemma definedCommandParseChild_cbl (fuel : Nat) (a : DefinedCommandS) (el : String)
    (m : AttrMap) (evs : List Event) (a' : DefinedCommandS) (rest : List Event)
    (h : definedCommandHandler.parseChild fuel a el m evs = .ok (a', rest)) :
    a'.cmd_buffer_level = a.cmd_buffer_level := by
  simp only [definedCommandHandler] at h
  by_cases hel : el = "proto"
  · rw [if_pos hel] at h
    cases hpp : parseGeneric commandProtoHandler fuel el m evs with
    | error e => rw [hpp] at h; cases h
    | ok pr =>
      obtain ⟨p, r⟩ := pr
      rw [hpp] at h
      cases h
      rfl
  · rw [if_neg hel] at h
    cases hci : commandItemParse fuel el m evs with
    | error e => rw [hci] at h; cases h
    | ok pr =>
      obtain ⟨ci, r⟩ := pr
      rw [hci] at h
      cases h
      rfl

/-- The event loop of the command handler preserves cmd_buffer_level:
parse_text is the rejecting default, parse_misc is the identity default,
and parse_child preserves the field. -/
lemma parseLoop_definedCommand_cbl :
    ∀ (fuel : Nat) (item : DefinedCommandS) (evs : List Event)
      (res : DefinedCommandS × List Event),
      parseLoop definedCommandHandler fuel item evs = .ok res →
      res.1.cmd_buffer_level = item.cmd_buffer_level := by
  intro fuel
  induction fuel with
  | zero =>
    intro item evs res h
    simp [parseLoop] at h
  | succ n ih =>
    intro item evs res h
    match evs with
    | [] => simp [parseLoop] at h
    | .endDocument :: _ => simp [parseLoop] at h
    | .startElement nm at1 :: rest =>
      rw [parseLoop] at h
      cases hc : definedCommandHandler.parseChild n item nm at1 rest with
      | error e => rw [hc] at h; cases h
      | ok pr =>
        obtain ⟨item', rest'⟩ := pr
        rw [hc] at h
        have := ih item' rest' res h
        rw [this, definedCommandParseChild_cbl n item nm at1 rest item' rest' hc]
    | .endElement nm :: rest =>
      rw [parseLoop] at h
      by_cases hnm : nm = definedCommandHandler.name
      · rw [if_pos hnm] at h
        cases h
        rfl
      · rw [if_neg hnm] at h
        cases h
    | .characters t :: rest =>
      rw [parseLoop] at h
      simp only [definedCommandHandler] at h
      cases h
    | .misc :: rest =>
      rw [parseLoop] at h
      exact ih item rest res h

/-- Removing one attribute key does not change what a different key
removes to. -/
lemma removeA_fst_ne (k k' : String) (hne : k ≠ k') (m : AttrMap) :
    (removeA k (removeA k' m).2).1 = (removeA k m).1 := by
  induction m with
  | nil => simp [removeA]
  | cons p rest ih =>
    obtain ⟨pk, pv⟩ := p
    by_cases h1 : pk = k'
    · have h2 : pk ≠ k := by
        rw [h1]
        exact fun hc => hne hc.symm
      simp [removeA, h1, h2, Ne.symm hne]
    · by_cases h2 : pk = k
      · simp [removeA, h1, h2, hne]
      · simp [removeA, h1, h2, ih]

/-- The queues field after DefinedCommand::parse_attribs is the
comma-split cmdbufferlevel attribute (the earlier queues-attribute value
is overwritten by the assignment at parse.rs line 1864). -/
lemma definedCommandParseAttribs_queues (a : DefinedCommandS) (m : AttrMap) :
    (definedCommandParseAttribs a m).1.queues =
      ((removeA "cmdbufferlevel" m).1).map splitComma := by
  show ((removeA "cmdbufferlevel"
      (removeA "videocoding" (removeA "renderpass" (removeA "queues"
        (removeA "errorcodes" (removeA "successcodes" (removeA "api" m).2).2).2).2).2).2).1).map
      splitComma = _
  rw [removeA_fst_ne _ _ (by decide), removeA_fst_ne _ _ (by decide),
    removeA_fst_ne _ _ (by decide), removeA_fst_ne _ _ (by decide),
    removeA_fst_ne _ _ (by decide), removeA_fst_ne _ _ (by decide)]

/-- C10: a command element without an alias attribute parses through the
DefinedCommand arm, and the resulting DefinedCommand's cmd_buffer_level
is always None (parse_attribs never writes it, parse_child only touches
proto and items); and the comma-split cmdbufferlevel attribute is stored
into the queues field, overwriting whatever the queues attribute set. -/
theorem c10_cmd_buffer_level :
    (∀ (fuel : Nat) (el : String) (m : AttrMap) (evs : List Event)
        (c : CommandPS) (rest : List Event),
      hasKey "alias" m = false →
      commandParse fuel el m evs = .ok (c, rest) →
      ∃ dc : DefinedCommandS, c = .defined dc ∧ dc.cmd_buffer_level = none) ∧
    (∀ (a : DefinedCommandS) (m : AttrMap),
      (definedCommandParseAttribs a m).1.queues =
        ((removeA "cmdbufferlevel" m).1).map splitComma) := by
  refine ⟨?_, definedCommandParseAttribs_queues⟩
  intro fuel el m evs c rest halias h
  unfold commandParse at h
  rw [if_neg (by simp [halias])] at h
  cases hpg : parseGeneric definedCommandHandler fuel el m evs with
  | error e => rw [hpg] at h; cases h
  | ok pr =>
    obtain ⟨dc, r⟩ := pr
    rw [hpg] at h
    injection h with h1
    refine ⟨dc, (congrArg Prod.fst h1).symm, ?_⟩
    unfold parseGeneric at hpg
    by_cases hel : el = definedCommandHandler.name
    · rw [if_neg (by simp [hel])] at hpg
      simp only [definedCommandHandler] at hpg
      rcases hq : definedCommandParseAttribs { } m with ⟨a0, m2⟩
      rw [hq] at hpg
      cases m2 with
      | nil =>
        have hloop := parseLoop_definedCommand_cbl fuel a0 evs (dc, r) hpg
        have ha0 : a0.cmd_buffer_level = none := by
          have := definedCommandParseAttribs_cbl { } m
          rw [hq] at this
          exact this
        rw [hloop, ha0]
      | cons p t =>
        obtain ⟨k, v⟩ := p
        cases hpg
    · rw [if_pos hel] at hpg
      cases hpg

/-- C10 witness: a concrete command element carrying only a
cmdbufferlevel attribute parses to a DefinedCommand whose
cmd_buffer_level is None and whose queues field received the
comma-split cmdbufferlevel value. -/
theorem c10_cmd_buffer_level_witness :
    hasKey "alias" [("cmdbufferlevel", "primary")] = false ∧
    commandParse 2 "command" [("cmdbufferlevel", "primary")] [Event.endElement "command"] =
      .ok (.defined c10Res, []) ∧
    (∃ dc : DefinedCommandS, CommandPS.defined c10Res = .defined dc ∧
      dc.cmd_buffer_level = none) ∧
    (definedCommandParseAttribs {} [("cmdbufferlevel", "primary")]).1.queues =
      ((removeA "cmdbufferlevel" [("cmdbufferlevel", "primary")]).1).map splitComma :=
  ⟨rfl, rfl,
   c10_cmd_buffer_level.1 2 "command" [("cmdbufferlevel", "primary")]
     [Event.endElement "command"] (.defined c10Res) [] rfl rfl,
   c10_cmd_buffer_level.2 {} [("cmdbufferlevel", "primary")]⟩

end GenVulkan
